import Mathlib

/-!
Verification development for the sofifa scraper repository
(Script_1.py: full-profile pipeline; Script_2.py: minimal name/value/wage
pipeline).  The Python sources are shallowly embedded: pure string and list
manipulations are translated to executable Lean functions on `String` and
`List Char`; the external DOM-query capability (BeautifulSoup) is modelled by
structures carrying exactly the projections the scripts read; browser
navigation and per-attempt exceptions are modelled by attempt-indexed
oracles (`Nat → Option _`, `none` meaning the attempt raised or navigation
failed); while-loops are modelled with explicit fuel.
-/

namespace Sofifa

/-! ### String helpers mirroring the Python primitives used by the scripts -/

/-- Model of the Python str.strip method: drop whitespace from both ends of
a character list. -/
def stripChars (l : List Char) : List Char :=
  ((l.dropWhile Char.isWhitespace).reverse.dropWhile Char.isWhitespace).reverse

/-- Model of str.strip on `String`. -/
def stripStr (s : String) : String :=
  ⟨stripChars s.data⟩

/-- Helper for the str.replace model: while `skip` is positive the character
under the cursor belongs to an occurrence already matched and is dropped;
at `skip = 0` a fresh occurrence of `pat` starting at the cursor is dropped
by entering the skip state for its remaining length, and any other
character is kept. -/
def removeAllAux (pat : List Char) : Nat → List Char → List Char
  | _, [] => []
  | 0, c :: cs =>
    if pat.isPrefixOf (c :: cs) ∧ pat ≠ [] then
      removeAllAux pat (pat.length - 1) cs
    else
      c :: removeAllAux pat 0 cs
  | k + 1, _ :: cs => removeAllAux pat k cs

/-- Model of the Python str.replace(old, new) call with new = "": remove all
non-overlapping occurrences of `pat`, scanning left to right.  For an empty
`pat` the Python call returns the string unchanged, as does this function. -/
def removeAll (pat l : List Char) : List Char :=
  removeAllAux pat 0 l

/-- Model of str.replace(pat, "") on `String`. -/
def removeStr (s pat : String) : String :=
  ⟨removeAll pat.data s.data⟩

/-- Model of the Python substring containment test (the in operator on
strings): does `pat` occur contiguously inside `l`? -/
def listContainsPat (pat : List Char) : List Char → Bool
  | [] => pat.isEmpty
  | c :: cs => pat.isPrefixOf (c :: cs) || listContainsPat pat cs

/-- Substring containment on `String`. -/
def strContainsPat (s pat : String) : Bool :=
  listContainsPat pat.data s.data

/-- Model of re.search(r"/player/(\d+)", url): find the leftmost position
where the literal segment "/player/" is followed by at least one digit and
return the maximal digit run captured there.  Both scripts use this pattern
(re.search in Script_2, re.findall taking the first hit in Script_1; both
give the leftmost match). -/
def playerIdFrom : List Char → Option String
  | [] => none
  | c :: cs =>
    if ("/player/".data).isPrefixOf (c :: cs) then
      let ds := (cs.drop 7).takeWhile Char.isDigit
      if ds.isEmpty then playerIdFrom cs else some ⟨ds⟩
    else
      playerIdFrom cs

/-! ### Script_1 safe_get (claim C2) -/

/-- Loop body of safe_get in Script_1.  The navigation stub `nav` reports
whether driver.get succeeds on the attempt with the given zero-based index.
The function returns the boolean result together with the number of attempts
actually made, mirroring the Python for-loop over range(retries) that
returns True on the first successful attempt and False after the loop. -/
def safeGetAux (nav : Nat → Bool) : Nat → Nat → Bool × Nat
  | i, 0 => (false, i)
  | i, fuel + 1 => if nav i then (true, i + 1) else safeGetAux nav (i + 1) fuel

/-- Model of safe_get(driver, url, retries): try navigation up to `retries`
times, returning True on the first success. -/
def safe_get (nav : Nat → Bool) (retries : Nat) : Bool × Nat :=
  safeGetAux nav 0 retries

theorem safeGetAux_false_iff (nav : Nat → Bool) :
    ∀ fuel i, (safeGetAux nav i fuel).1 = false ↔ ∀ j, j < fuel → nav (i + j) = false := by
  intro fuel
  induction fuel with
  | zero => intro i; simp [safeGetAux]
  | succ n ih =>
    intro i
    by_cases h : nav i
    · simp only [safeGetAux, h, if_true]
      constructor
      · intro hc; cases hc
      · intro hall
        have := hall 0 (Nat.zero_lt_succ n)
        rw [Nat.add_zero] at this
        rw [h] at this; cases this
    · simp only [safeGetAux, Bool.not_eq_true] at h
      simp only [safeGetAux, h, Bool.false_eq_true, if_false]
      rw [ih (i + 1)]
      constructor
      · intro hall j hj
        match j, hj with
        | 0, _ => rw [Nat.add_zero]; exact h
        | j + 1, hj =>
          have hv := hall j (Nat.lt_of_succ_lt_succ hj)
          have e : i + 1 + j = i + (j + 1) := by omega
          rw [e] at hv; exact hv
      · intro hall j hj
        have hv := hall (j + 1) (Nat.succ_lt_succ hj)
        have e : i + (j + 1) = i + 1 + j := by omega
        rw [e] at hv; exact hv

/-- C2: for safe_get with retries = 3, if every navigation attempt raises
the function makes exactly 3 attempts and returns false; if attempt 1 fails
and attempt 2 succeeds it returns true after exactly 2 attempts; and the
result is false exactly when every one of the 3 attempts raised. -/
theorem C2_safe_get_retry_bound (nav : Nat → Bool) :
    ((∀ j, j < 3 → nav j = false) → safe_get nav 3 = (false, 3)) ∧
    (nav 0 = false → nav 1 = true → safe_get nav 3 = (true, 2)) ∧
    ((safe_get nav 3).1 = false ↔ ∀ j, j < 3 → nav j = false) := by
  refine ⟨?_, ?_, ?_⟩
  · intro hall
    have h0 := hall 0 (by omega)
    have h1 := hall 1 (by omega)
    have h2 := hall 2 (by omega)
    simp [safe_get, safeGetAux, h0, h1, h2]
  · intro h0 h1
    simp [safe_get, safeGetAux, h0, h1]
  · have := safeGetAux_false_iff nav 3 0
    simpa [safe_get] using this

/-- Witness for C2 at concrete navigation stubs: the always-raising stub
makes 3 attempts and returns false, and the stub succeeding on attempt 2
returns true after 2 attempts. -/
theorem C2_safe_get_retry_bound_witness :
    safe_get (fun _ => false) 3 = (false, 3) ∧
    safe_get (fun j => j == 1) 3 = (true, 2) :=
  ⟨(C2_safe_get_retry_bound (fun _ => false)).1 (fun _ _ => rfl),
   (C2_safe_get_retry_bound (fun j => j == 1)).2.1 rfl rfl⟩

/-! ### Script_2 get_player_urls_from_team deduplication (claim C4) -/

/-- One insertion step of dict.fromkeys: a key already present keeps its
original position (and merely has its value overwritten), a new key is
appended at the end, since Python dictionaries preserve insertion order. -/
def dictInsertKey (acc : List String) (x : String) : List String :=
  if x ∈ acc then acc else acc ++ [x]

/-- Model of list(dict.fromkeys(player_urls)) at the end of
get_player_urls_from_team in Script_2: fold the URL list into an ordered
key set. -/
def dictFromKeys (l : List String) : List String :=
  l.foldl dictInsertKey []

/-- Modelled from the spec: keep only the first occurrence of each element,
preserving first-seen order (the reference behaviour the deduplication step
is claimed to have). -/
def firstOccurrenceDedup : List String → List String
  | [] => []
  | x :: xs => x :: firstOccurrenceDedup (xs.filter (fun y => y ≠ x))
termination_by l => l.length
decreasing_by
  simp only [List.length_cons]
  have := List.length_filter_le (fun y => decide (y ≠ x)) xs
  omega

theorem foldl_dictInsertKey (l : List String) :
    ∀ acc : List String,
      l.foldl dictInsertKey acc =
        acc ++ firstOccurrenceDedup (l.filter (fun y => y ∉ acc)) := by
  induction l with
  | nil => intro acc; simp [firstOccurrenceDedup]
  | cons x xs ih =>
    intro acc
    by_cases hx : x ∈ acc
    · rw [List.foldl_cons]
      have hstep : dictInsertKey acc x = acc := by simp [dictInsertKey, hx]
      rw [hstep, ih acc]
      have hfilter : (x :: xs).filter (fun y => y ∉ acc) =
          xs.filter (fun y => y ∉ acc) := by
        simp [List.filter_cons, hx]
      rw [hfilter]
    · rw [List.foldl_cons]
      have hstep : dictInsertKey acc x = acc ++ [x] := by simp [dictInsertKey, hx]
      rw [hstep, ih (acc ++ [x])]
      have hfilter : (x :: xs).filter (fun y => y ∉ acc) =
          x :: xs.filter (fun y => y ∉ acc) := by
        simp [List.filter_cons, hx]
      rw [hfilter, List.append_assoc, List.singleton_append]
      have hinner : xs.filter (fun y => y ∉ acc ++ [x]) =
          (xs.filter (fun y => y ∉ acc)).filter (fun y => y ≠ x) := by
        rw [List.filter_filter]
        apply List.filter_congr
        intro a _
        by_cases hax : a = x <;> by_cases hacc : a ∈ acc <;>
          simp [hax, hacc]
      have houter : firstOccurrenceDedup (x :: xs.filter (fun y => y ∉ acc)) =
          x :: firstOccurrenceDedup
            ((xs.filter (fun y => y ∉ acc)).filter (fun y => y ≠ x)) := by
        rw [firstOccurrenceDedup]
      rw [houter, hinner]

theorem foldl_dictInsertKey_nodup (l : List String) :
    ∀ acc : List String, acc.Nodup → (l.foldl dictInsertKey acc).Nodup := by
  induction l with
  | nil => intro acc h; simpa using h
  | cons x xs ih =>
    intro acc h
    rw [List.foldl_cons]
    by_cases hx : x ∈ acc
    · have hstep : dictInsertKey acc x = acc := by simp [dictInsertKey, hx]
      rw [hstep]; exact ih acc h
    · have hstep : dictInsertKey acc x = acc ++ [x] := by simp [dictInsertKey, hx]
      rw [hstep]
      apply ih
      simp [List.nodup_append, h, hx]

theorem mem_foldl_dictInsertKey (l : List String) :
    ∀ acc y, y ∈ l.foldl dictInsertKey acc ↔ y ∈ acc ∨ y ∈ l := by
  induction l with
  | nil => intro acc y; simp
  | cons x xs ih =>
    intro acc y
    rw [List.foldl_cons]
    by_cases hx : x ∈ acc
    · have hstep : dictInsertKey acc x = acc := by simp [dictInsertKey, hx]
      rw [hstep, ih]
      constructor
      · rintro (h | h)
        · exact Or.inl h
        · exact Or.inr (List.mem_cons_of_mem x h)
      · rintro (h | h)
        · exact Or.inl h
        · rcases List.mem_cons.mp h with h | h
          · exact Or.inl (h ▸ hx)
          · exact Or.inr h
    · have hstep : dictInsertKey acc x = acc ++ [x] := by simp [dictInsertKey, hx]
      rw [hstep, ih]
      simp only [List.mem_append, List.mem_singleton, List.mem_cons]
      tauto

/-- C4: the list-building step of get_player_urls_from_team in Script_2,
list(dict.fromkeys(urls)), deduplicates the discovered player URLs keeping
only the first occurrence of each URL in first-seen order: it agrees with
the reference first-occurrence deduplication, contains each URL exactly
once, and maps the repeat list A B A C B to A B C. -/
theorem C4_dedup_first_occurrence (l : List String) :
    dictFromKeys l = firstOccurrenceDedup l ∧
    (dictFromKeys l).Nodup ∧
    (∀ y, y ∈ dictFromKeys l ↔ y ∈ l) ∧
    dictFromKeys ["A", "B", "A", "C", "B"] = ["A", "B", "C"] := by
  refine ⟨?_, ?_, ?_, by rfl⟩
  · have h := foldl_dictInsertKey l []
    simpa [dictFromKeys, List.filter_true] using h
  · exact foldl_dictInsertKey_nodup l [] List.nodup_nil
  · intro y
    have := mem_foldl_dictInsertKey l [] y
    simpa [dictFromKeys] using this

/-! ### scroll_to_bottom (claim C8)

Both scripts contain the same while-True loop: measure the document height,
scroll, re-measure, and break when the new measurement equals the previous
one.  The height measurements are modelled by a sequence `h : Nat → Nat`
(`h 0` is the initial measurement taken before the loop, `h i` for `i ≥ 1`
the measurement taken in iteration `i`).  The unbounded while-loop is given
explicit fuel; returning `none` means the loop has not stopped within the
given number of iterations. -/

/-- Loop of scroll_to_bottom: `last` holds the previous measurement, `i` is
the index of the next measurement, and the result is the index at which the
loop broke (the first measurement equal to its predecessor). -/
def scrollAux (h : Nat → Nat) : Nat → Nat → Nat → Option Nat
  | _, _, 0 => none
  | last, i, fuel + 1 =>
    if h i = last then some i else scrollAux h (h i) (i + 1) fuel

/-- Model of scroll_to_bottom: start from the initial measurement h 0 and
iterate until two consecutive measurements agree. -/
def scroll_to_bottom (h : Nat → Nat) (fuel : Nat) : Option Nat :=
  scrollAux h (h 0) 1 fuel

theorem scrollAux_some (h : Nat → Nat) :
    ∀ fuel i k, 1 ≤ i → scrollAux h (h (i - 1)) i fuel = some k →
      i ≤ k ∧ h k = h (k - 1) ∧ ∀ m, i ≤ m → m < k → h m ≠ h (m - 1) := by
  intro fuel
  induction fuel with
  | zero => intro i k _ hc; cases hc
  | succ n ih =>
    intro i k hi hc
    rw [scrollAux] at hc
    by_cases heq : h i = h (i - 1)
    · rw [if_pos heq] at hc
      cases hc
      exact ⟨Nat.le_refl i, heq, fun m hm1 hm2 => absurd (Nat.lt_of_le_of_lt hm1 hm2) (Nat.lt_irrefl i)⟩
    · rw [if_neg heq] at hc
      have hi1 : h i = h ((i + 1) - 1) := by simp
      rw [hi1] at hc
      obtain ⟨hle, hk, hall⟩ := ih (i + 1) k (by omega) hc
      refine ⟨by omega, hk, ?_⟩
      intro m hm1 hm2
      by_cases hmi : m = i
      · subst hmi; exact heq
      · exact hall m (by omega) hm2

theorem scrollAux_stops (h : Nat → Nat) :
    ∀ fuel i n, 1 ≤ i → i ≤ n + 1 → h (n + 1) = h n → n + 2 - i ≤ fuel →
      scrollAux h (h (i - 1)) i fuel ≠ none := by
  intro fuel
  induction fuel with
  | zero => intro i n hi hin _ hfuel; omega
  | succ f ih =>
    intro i n hi hin hstab hfuel
    rw [scrollAux]
    by_cases heq : h i = h (i - 1)
    · rw [if_pos heq]; intro hc; cases hc
    · rw [if_neg heq]
      have hne : i ≠ n + 1 := by
        intro hcontr
        apply heq
        subst hcontr
        simpa using hstab
      have hi1 : h i = h ((i + 1) - 1) := by simp
      rw [hi1]
      exact ih (i + 1) n (by omega) (by omega) hstab (by omega)

theorem scrollAux_never (h : Nat → Nat) (hnever : ∀ m, h (m + 1) ≠ h m) :
    ∀ fuel i, 1 ≤ i → scrollAux h (h (i - 1)) i fuel = none := by
  intro fuel
  induction fuel with
  | zero => intro i _; rfl
  | succ f ih =>
    intro i hi
    rw [scrollAux]
    have heq : h i ≠ h (i - 1) := by
      have hv := hnever (i - 1)
      have e : i - 1 + 1 = i := by omega
      rw [e] at hv
      exact hv
    rw [if_neg heq]
    have hi1 : h i = h ((i + 1) - 1) := by simp
    rw [hi1]
    exact ih (i + 1) (by omega)

/-- C8: the scroll loop stops exactly at the first measurement equal to its
predecessor (two consecutive equal document heights); whenever some
measurement repeats its predecessor the loop terminates with enough fuel;
and on a height sequence that never repeats consecutively the loop never
stops, whatever iteration bound is imposed (the source has none). -/
theorem C8_scroll_until_stable (h : Nat → Nat) (fuel k n : Nat) :
    (scroll_to_bottom h fuel = some k →
      1 ≤ k ∧ h k = h (k - 1) ∧ ∀ m, 1 ≤ m → m < k → h m ≠ h (m - 1)) ∧
    (h (n + 1) = h n → n + 1 ≤ fuel → scroll_to_bottom h fuel ≠ none) ∧
    ((∀ m, h (m + 1) ≠ h m) → scroll_to_bottom h fuel = none) := by
  refine ⟨?_, ?_, ?_⟩
  · intro hc
    have h0 : h 0 = h (1 - 1) := by norm_num
    rw [scroll_to_bottom, h0] at hc
    exact scrollAux_some h fuel 1 k (by omega) hc
  · intro hstab hfuel
    have h0 : h 0 = h (1 - 1) := by norm_num
    rw [scroll_to_bottom, h0]
    exact scrollAux_stops h fuel 1 n (by omega) (by omega) hstab (by omega)
  · intro hnever
    have h0 : h 0 = h (1 - 1) := by norm_num
    rw [scroll_to_bottom, h0]
    exact scrollAux_never h hnever fuel 1 (by omega)

/-- Witness for C8 at concrete height sequences: the sequence capped at 5
stabilizes and the loop reports the stop index 6 with the stop condition
holding there, while the strictly growing sequence never stops the loop. -/
theorem C8_scroll_until_stable_witness :
    (1 ≤ 6 ∧ (fun m => min m 5) 6 = (fun m => min m 5) (6 - 1) ∧
      ∀ m, 1 ≤ m → m < 6 → (fun m => min m 5) m ≠ (fun m => min m 5) (m - 1)) ∧
    scroll_to_bottom (fun m => m) 9 = none :=
  ⟨(C8_scroll_until_stable (fun m => min m 5) 9 6 0).1 (by decide),
   (C8_scroll_until_stable (fun m => m) 9 6 0).2.2 (fun m => by omega)⟩

/-! ### scrape_player_profile (claims C1 and C5)

The rendered detail page, as seen through the BeautifulSoup queries issued
by Script_1 lines 155-225, is modelled by the structure `Soup`:
- `title` is the text of the title element, if one exists;
- `ldj` describes the first script tag of type application/ld+json, if one
  exists: json.loads of its string content either raises JSONDecodeError
  (caught by the inner except and swallowed), or succeeds with a non-dict
  value or has no usable string content, in which case the subsequent
  data.get call raises an exception the inner except does NOT catch
  (constructor `crash`), or succeeds with a dict carrying optional height,
  weight and nationality entries;
- `paras` lists every p element, as the pair of its label child text (if a
  label child exists) and its get_text(strip=True) text;
- `infos` lists every div of class info the same way;
- `posSib` is str(span.next_sibling) for the first span of class pos, when
  that span exists and has a next sibling. -/

/-- Outcome of json.loads plus the three data.get calls on the JSON-LD
script tag content. -/
inductive ScriptContent where
  | decodeError : ScriptContent
  | crash : ScriptContent
  | obj : Option String → Option String → Option String → ScriptContent
deriving DecidableEq

/-- One p element: optional label child text plus the paragraph text. -/
structure Para where
  label : Option String
  text : String
deriving DecidableEq

/-- One div of class info: optional label child text plus the div text. -/
structure InfoDiv where
  label : Option String
  text : String
deriving DecidableEq

/-- The projections of a rendered detail page read by scrape_player_profile. -/
structure Soup where
  title : Option String
  ldj : Option ScriptContent
  paras : List Para
  infos : List InfoDiv
  posSib : Option String
deriving DecidableEq

/-- The sentinel 9-field result ["-"] * 9. -/
def allSentinel : List String :=
  List.replicate 9 "-"

/-- Test on line 164 of Script_1: a title element exists and its text
contains the substring Page not found. -/
def pageNotFound (s : Soup) : Bool :=
  match s.title with
  | none => false
  | some t => strContainsPat t "Page not found"

/-- Result of the JSON-LD block evaluation: either an uncaught exception
(raisedE) or the three extracted fields, each defaulting to the sentinel. -/
inductive LdEval where
  | raisedE : LdEval
  | fields : String → String → String → LdEval
deriving DecidableEq

/-- Evaluation of lines 176-184 of Script_1: a missing script tag or a
JSONDecodeError leaves all three fields at the sentinel; a non-dict value
raises out of the attempt; a dict yields data.get(key, "-") per field. -/
def evalLd : Option ScriptContent → LdEval
  | none => LdEval.fields "-" "-" "-"
  | some ScriptContent.decodeError => LdEval.fields "-" "-" "-"
  | some ScriptContent.crash => LdEval.raisedE
  | some (ScriptContent.obj h w n) =>
    LdEval.fields (h.getD "-") (w.getD "-") (n.getD "-")

/-- State of the paragraph scan: preferred foot, skill moves, weak foot and
contract valid until, all initialized to the sentinel. -/
structure ParaState where
  foot : String
  skill : String
  weak : String
  cvu : String
deriving DecidableEq

/-- One step of the paragraph loop (lines 186-201 of Script_1): paragraphs
without a label are skipped; otherwise the label text is stripped, the value
field is the paragraph text with the label text removed and stripped, and an
exact label match assigns the corresponding field (later paragraphs with the
same label overwrite earlier ones, as in the source loop). -/
def paraStep (st : ParaState) (p : Para) : ParaState :=
  match p.label with
  | none => st
  | some lbl =>
    let text := stripStr lbl
    let vf := stripStr (removeStr p.text text)
    if text = "Preferred foot" then { st with foot := vf }
    else if text = "Skill moves" then { st with skill := vf }
    else if text = "Weak foot" then { st with weak := vf }
    else if text = "Contract valid until" then { st with cvu := vf }
    else st

/-- Initial paragraph-scan state, all sentinel. -/
def paraInit : ParaState :=
  ⟨"-", "-", "-", "-"⟩

/-- State of the info-div scan: market value and wage. -/
structure InfoState where
  value : String
  wage : String
deriving DecidableEq

/-- One step of the info-div loop (lines 203-209 of Script_1): divs without
a label are skipped; a label whose text contains Value assigns the value
field, else a label containing Wage assigns the wage field, removing the
matched word from the div text and stripping. -/
def infoStep (st : InfoState) (d : InfoDiv) : InfoState :=
  match d.label with
  | none => st
  | some lbl =>
    if strContainsPat lbl "Value" then
      { st with value := stripStr (removeStr d.text "Value") }
    else if strContainsPat lbl "Wage" then
      { st with wage := stripStr (removeStr d.text "Wage") }
    else st

/-- Initial info-div scan state. -/
def infoInit : InfoState :=
  ⟨"-", "-"⟩

/-- Model of matching the regular expression \d-four \s* tilde \s* \d-four
at the current position: exactly four digits, optional whitespace, the
tilde character, optional whitespace, four digits; returns the matched
character run. -/
def matchYears (l : List Char) : Option (List Char) :=
  match l with
  | a :: b :: c :: d :: rest =>
    if a.isDigit ∧ b.isDigit ∧ c.isDigit ∧ d.isDigit then
      let ws1 := rest.takeWhile Char.isWhitespace
      match rest.dropWhile Char.isWhitespace with
      | '~' :: r3 =>
        let ws2 := r3.takeWhile Char.isWhitespace
        match r3.dropWhile Char.isWhitespace with
        | e :: f :: g :: i :: _ =>
          if e.isDigit ∧ f.isDigit ∧ g.isDigit ∧ i.isDigit then
            some ([a, b, c, d] ++ ws1 ++ ['~'] ++ ws2 ++ [e, f, g, i])
          else none
        | _ => none
      | _ => none
    else none
  | _ => none

/-- Model of re.search with the year-span pattern: leftmost match wins. -/
def searchYears : List Char → Option (List Char)
  | [] => none
  | c :: cs =>
    match matchYears (c :: cs) with
    | some m => some m
    | none => searchYears cs

/-- Lines 211-217 of Script_1: the contract duration is the year-span match
inside the next sibling of the pos span, if the span, the sibling and the
match all exist, else the sentinel. -/
def durationOf : Option String → String
  | none => "-"
  | some sib =>
    match searchYears sib.data with
    | some m => ⟨m⟩
    | none => "-"

/-- Outcome of the parse phase of one attempt of scrape_player_profile. -/
inductive ParseOut where
  | raised : ParseOut
  | result : List String → ParseOut
deriving DecidableEq

/-- Parse phase of one attempt of scrape_player_profile (lines 162-219),
given the page soup: the not-found title short-circuits to the all-sentinel
result, a crashing JSON-LD block raises out of the attempt, and otherwise
the nine fields are extracted as in the source, with contract end preferring
the duration pattern over the contract-valid-until paragraph. -/
def profileFromSoup (s : Soup) : ParseOut :=
  if pageNotFound s then ParseOut.result allSentinel
  else
    match evalLd s.ldj with
    | LdEval.raisedE => ParseOut.raised
    | LdEval.fields h w n =>
      let pst := s.paras.foldl paraStep paraInit
      let ist := s.infos.foldl infoStep infoInit
      let dur := durationOf s.posSib
      let contractEnd := if dur ≠ "-" then dur else pst.cvu
      ParseOut.result [h, w, pst.foot, pst.skill, pst.weak, contractEnd,
        ist.value, ist.wage, n]

/-- Retry loop of scrape_player_profile (lines 155-225).  The oracle `att`
gives, per zero-based attempt index, either the soup the attempt parses, or
`none` when the attempt is consumed without a parse (safe_get returned
False and the loop continued, or navigation, the readiness wait or the
parse raised and the except clause caught it).  After the fuel (max_retries)
is exhausted the function returns ["-"] * 9. -/
def scrapeAux (att : Nat → Option Soup) : Nat → Nat → List String
  | _, 0 => allSentinel
  | i, fuel + 1 =>
    match att i with
    | none => scrapeAux att (i + 1) fuel
    | some s =>
      match profileFromSoup s with
      | ParseOut.raised => scrapeAux att (i + 1) fuel
      | ParseOut.result r => r

/-- Model of scrape_player_profile(player_url, driver, debug_dir,
max_retries): run up to maxRetries attempts. -/
def scrape_player_profile (att : Nat → Option Soup) (maxRetries : Nat) : List String :=
  scrapeAux att 0 maxRetries

/-- Attempt `i` is consumed without producing a result: navigation failed or
an exception was caught. -/
def attemptConsumed (att : Nat → Option Soup) (i : Nat) : Prop :=
  att i = none ∨ ∃ s, att i = some s ∧ profileFromSoup s = ParseOut.raised

/-! ### Fieldwise views of the detail extraction

Each of the nine fields of the result of scrape_player_profile is computed
from one dedicated slice of the page: height, weight and nationality from
the JSON-LD block, preferred foot, skill moves, weak foot and the
contract-valid-until fallback from the labeled paragraphs, market value and
wage from the info divs, and the contract-duration pattern from the sibling
of the pos span.  The functions below extract each field from its slice
alone; the decomposition theorem in C1 shows the extraction computes
exactly these, which is the field-independence property. -/

/-- Height part of an LdEval. -/
def ldHeight : LdEval → String
  | LdEval.raisedE => "-"
  | LdEval.fields h _ _ => h

/-- Weight part of an LdEval. -/
def ldWeight : LdEval → String
  | LdEval.raisedE => "-"
  | LdEval.fields _ w _ => w

/-- Nationality part of an LdEval. -/
def ldNat : LdEval → String
  | LdEval.raisedE => "-"
  | LdEval.fields _ _ n => n

/-- Height field as a function of the JSON-LD block alone. -/
def heightOf (o : Option ScriptContent) : String :=
  ldHeight (evalLd o)

/-- Weight field as a function of the JSON-LD block alone. -/
def weightOf (o : Option ScriptContent) : String :=
  ldWeight (evalLd o)

/-- Nationality field as a function of the JSON-LD block alone. -/
def natOf (o : Option ScriptContent) : String :=
  ldNat (evalLd o)

/-- Preferred-foot field as a function of the paragraph list alone. -/
def footOf (ps : List Para) : String :=
  (ps.foldl paraStep paraInit).foot

/-- Skill-moves field as a function of the paragraph list alone. -/
def skillOf (ps : List Para) : String :=
  (ps.foldl paraStep paraInit).skill

/-- Weak-foot field as a function of the paragraph list alone. -/
def weakOf (ps : List Para) : String :=
  (ps.foldl paraStep paraInit).weak

/-- Contract-valid-until paragraph value as a function of the paragraph
list alone. -/
def cvuOf (ps : List Para) : String :=
  (ps.foldl paraStep paraInit).cvu

/-- Contract-end field: the duration pattern next to the pos span when it
matches, else the contract-valid-until paragraph value. -/
def contractEndOf (ps : List Para) (sib : Option String) : String :=
  if durationOf sib ≠ "-" then durationOf sib else cvuOf ps

/-- Market-value field as a function of the info divs alone. -/
def valueOf (ds : List InfoDiv) : String :=
  (ds.foldl infoStep infoInit).value

/-- Wage field as a function of the info divs alone. -/
def wageOf (ds : List InfoDiv) : String :=
  (ds.foldl infoStep infoInit).wage

/-- The soup of an empty or fully unrecognizable markup: BeautifulSoup
finds no title, no JSON-LD script, no paragraphs, no info divs and no pos
span. -/
def emptySoup : Soup :=
  ⟨none, none, [], [], none⟩

theorem evalLd_eq_raisedE_iff (o : Option ScriptContent) :
    evalLd o = LdEval.raisedE ↔ o = some ScriptContent.crash := by
  cases o with
  | none => simp [evalLd]
  | some c => cases c <;> simp [evalLd]

theorem profile_result_length (s : Soup) (r : List String)
    (h : profileFromSoup s = ParseOut.result r) : r.length = 9 := by
  rw [profileFromSoup] at h
  by_cases hnf : pageNotFound s
  · rw [if_pos hnf] at h
    cases h
    rfl
  · rw [if_neg hnf] at h
    cases hld : evalLd s.ldj with
    | raisedE => rw [hld] at h; cases h
    | fields hh ww nn =>
      rw [hld] at h
      cases h
      rfl

theorem profile_notFound (s : Soup) (h : pageNotFound s = true) :
    profileFromSoup s = ParseOut.result allSentinel := by
  rw [profileFromSoup, if_pos h]

theorem profile_crash (s : Soup) (hnf : pageNotFound s = false)
    (hcr : s.ldj = some ScriptContent.crash) :
    profileFromSoup s = ParseOut.raised := by
  rw [profileFromSoup, if_neg (by simp [hnf])]
  rw [(evalLd_eq_raisedE_iff s.ldj).mpr hcr]

theorem profile_decomp (s : Soup) (hnf : pageNotFound s = false)
    (hcr : s.ldj ≠ some ScriptContent.crash) :
    profileFromSoup s = ParseOut.result
      [heightOf s.ldj, weightOf s.ldj, footOf s.paras, skillOf s.paras,
       weakOf s.paras, contractEndOf s.paras s.posSib, valueOf s.infos,
       wageOf s.infos, natOf s.ldj] := by
  rw [profileFromSoup, if_neg (by simp [hnf])]
  cases hld : evalLd s.ldj with
  | raisedE => exact absurd ((evalLd_eq_raisedE_iff s.ldj).mp hld) hcr
  | fields hh ww nn =>
    have e1 : heightOf s.ldj = hh := by rw [heightOf, hld]; rfl
    have e2 : weightOf s.ldj = ww := by rw [weightOf, hld]; rfl
    have e3 : natOf s.ldj = nn := by rw [natOf, hld]; rfl
    rw [e1, e2, e3]
    rfl

theorem scrapeAux_length (att : Nat → Option Soup) :
    ∀ fuel i, (scrapeAux att i fuel).length = 9 := by
  intro fuel
  induction fuel with
  | zero => intro i; rfl
  | succ f ih =>
    intro i
    cases hatt : att i with
    | none =>
      simp only [scrapeAux, hatt]
      exact ih (i + 1)
    | some s =>
      cases hp : profileFromSoup s with
      | raised =>
        simp only [scrapeAux, hatt, hp]
        exact ih (i + 1)
      | result r =>
        simp only [scrapeAux, hatt, hp]
        exact profile_result_length s r hp

theorem scrapeAux_exhaust (att : Nat → Option Soup) :
    ∀ fuel i, (∀ j, j < fuel → attemptConsumed att (i + j)) →
      scrapeAux att i fuel = allSentinel := by
  intro fuel
  induction fuel with
  | zero => intro i _; rfl
  | succ f ih =>
    intro i hall
    have h0 := hall 0 (by omega)
    rw [Nat.add_zero] at h0
    have hrest : ∀ j, j < f → attemptConsumed att (i + 1 + j) := by
      intro j hj
      have hv := hall (j + 1) (by omega)
      have e : i + (j + 1) = i + 1 + j := by omega
      rw [e] at hv
      exact hv
    rcases h0 with hnone | ⟨s, hs, hp⟩
    · simp only [scrapeAux, hnone]
      exact ih (i + 1) hrest
    · simp only [scrapeAux, hs, hp]
      exact ih (i + 1) hrest

theorem scrapeAux_notFound_stop (att : Nat → Option Soup) (s : Soup)
    (hnf : pageNotFound s = true) :
    ∀ m fuel i, (∀ j, j < m → attemptConsumed att (i + j)) →
      att (i + m) = some s → m < fuel →
      scrapeAux att i fuel = allSentinel := by
  intro m
  induction m with
  | zero =>
    intro fuel i _ hatt hlt
    match fuel, hlt with
    | f + 1, _ =>
      rw [Nat.add_zero] at hatt
      simp only [scrapeAux, hatt, profile_notFound s hnf]
  | succ m ih =>
    intro fuel i hall hatt hlt
    match fuel, hlt with
    | f + 1, hlt =>
      have h0 := hall 0 (by omega)
      rw [Nat.add_zero] at h0
      have hrest : ∀ j, j < m → attemptConsumed att (i + 1 + j) := by
        intro j hj
        have hv := hall (j + 1) (by omega)
        have e : i + (j + 1) = i + 1 + j := by omega
        rw [e] at hv
        exact hv
      have hatt1 : att (i + 1 + m) = some s := by
        have e : i + (m + 1) = i + 1 + m := by omega
        rw [e] at hatt
        exact hatt
      rcases h0 with hnone | ⟨s0, hs0, hp0⟩
      · simp only [scrapeAux, hnone]
        exact ih f (i + 1) hrest hatt1 (by omega)
      · simp only [scrapeAux, hs0, hp0]
        exact ih f (i + 1) hrest hatt1 (by omega)

/-- A paragraph carrying the preferred-foot label with value Left, as it is
seen through the soup projections: label text plus full paragraph text. -/
def footPara : Para :=
  ⟨some "Preferred foot", "Preferred footLeft"⟩

/-- Markup whose JSON-LD script content parses as valid JSON but not as an
object (for example a top-level array), so that data.get raises an
exception the inner except clause of Script_1 does not catch, next to a
perfectly well-formed preferred-foot paragraph. -/
def soupCrashLd : Soup :=
  ⟨none, some ScriptContent.crash, [footPara], [], none⟩

/-- The same markup with the JSON-LD block simply absent. -/
def soupNoLd : Soup :=
  ⟨none, none, [footPara], [], none⟩

/-- C1 counterexample: two markups that differ only in the embedded JSON-LD
block — absent in one, present but parsing to a non-object JSON value in
the other — give different values for the preferred-foot field: the absent
block leaves foot extraction untouched (Left), while the malformed block
makes every attempt raise (json.loads succeeds, data.get throws an
AttributeError that only the outer per-attempt except catches), so after
max_retries the whole result is sentinel and foot is "-".  This refutes the
claim that an invalid embedded JSON-LD block leaves the remaining fields
unaffected. -/
theorem C1_profile_extraction_counterexample :
    soupCrashLd.title = soupNoLd.title ∧
    soupCrashLd.paras = soupNoLd.paras ∧
    soupCrashLd.infos = soupNoLd.infos ∧
    soupCrashLd.posSib = soupNoLd.posSib ∧
    scrape_player_profile (fun _ => some soupNoLd) 3 =
      ["-", "-", "Left", "-", "-", "-", "-", "-", "-"] ∧
    scrape_player_profile (fun _ => some soupCrashLd) 3 = allSentinel ∧
    allSentinel = ["-", "-", "-", "-", "-", "-", "-", "-", "-"] :=
  ⟨rfl, rfl, rfl, rfl, by decide, by decide, by decide⟩

/-- C1 (amended): for every markup input the detail extraction returns a
9-field result and never propagates an exception to the caller (the model
is a total function into 9-field lists); outside the not-found
short-circuit, whenever the JSON-LD block does not parse to a non-object
value each of the nine fields is computed from its own slice of the page
alone (so absence or malformation of one field leaves the others
unaffected), each field defaulting independently to the sentinel "-" and
fully empty markup giving the all-sentinel result; however a JSON-LD block
parsing to a non-object value makes the attempt raise internally, and when
every attempt is consumed this way (or by navigation failures) the whole
result degrades to all sentinels. -/
theorem C1_profile_extraction_amended (att : Nat → Option Soup) (n : Nat) (s : Soup) :
    (scrape_player_profile att n).length = 9 ∧
    (pageNotFound s = false → s.ldj ≠ some ScriptContent.crash →
      profileFromSoup s = ParseOut.result
        [heightOf s.ldj, weightOf s.ldj, footOf s.paras, skillOf s.paras,
         weakOf s.paras, contractEndOf s.paras s.posSib, valueOf s.infos,
         wageOf s.infos, natOf s.ldj]) ∧
    (heightOf none = "-" ∧ weightOf none = "-" ∧ natOf none = "-" ∧
     footOf [] = "-" ∧ skillOf [] = "-" ∧ weakOf [] = "-" ∧
     contractEndOf [] none = "-" ∧ valueOf [] = "-" ∧ wageOf [] = "-" ∧
     profileFromSoup emptySoup = ParseOut.result allSentinel) ∧
    (pageNotFound s = false → s.ldj = some ScriptContent.crash →
      profileFromSoup s = ParseOut.raised) ∧
    ((∀ j, j < n → attemptConsumed att j) →
      scrape_player_profile att n = allSentinel) := by
  refine ⟨scrapeAux_length att n 0, profile_decomp s, ?_, profile_crash s, ?_⟩
  · exact ⟨rfl, rfl, rfl, rfl, rfl, rfl, rfl, rfl, rfl, by decide⟩
  · intro hall
    apply scrapeAux_exhaust att n 0
    intro j hj
    have := hall j hj
    simpa using this

/-- Witness for C1 at concrete inputs: the markup with a well-formed
preferred-foot paragraph and no JSON-LD block decomposes fieldwise, and an
oracle whose three attempts all fail yields the all-sentinel result. -/
theorem C1_profile_extraction_witness :
    profileFromSoup soupNoLd = ParseOut.result
      [heightOf soupNoLd.ldj, weightOf soupNoLd.ldj, footOf soupNoLd.paras,
       skillOf soupNoLd.paras, weakOf soupNoLd.paras,
       contractEndOf soupNoLd.paras soupNoLd.posSib, valueOf soupNoLd.infos,
       wageOf soupNoLd.infos, natOf soupNoLd.ldj] ∧
    scrape_player_profile (fun _ => none) 3 = allSentinel :=
  ⟨((C1_profile_extraction_amended (fun _ => none) 3 soupNoLd).2.1 rfl (by decide)),
   ((C1_profile_extraction_amended (fun _ => none) 3 soupNoLd).2.2.2.2
     (fun j _ => Or.inl rfl))⟩

/-- C5: a detail page whose title text marks it as a not-found placeholder
makes extraction return the all-sentinel 9-field result immediately — for
every such soup, whatever its paragraphs, info divs, JSON-LD block or pos
span contain, the parse phase returns the sentinel result without touching
them — and inside the retry loop such a page ends the scrape at that very
attempt with the sentinel result, consuming none of the remaining retry
budget (the conclusion holds for every remaining budget n - k - 1 and does
not constrain the oracle beyond attempt k). -/
theorem C5_not_found_short_circuit (s : Soup) (att : Nat → Option Soup)
    (n k : Nat) (hnf : pageNotFound s = true) :
    profileFromSoup s = ParseOut.result allSentinel ∧
    ((∀ j, j < k → attemptConsumed att j) → att k = some s → k < n →
      scrape_player_profile att n = allSentinel) := by
  refine ⟨profile_notFound s hnf, ?_⟩
  intro hall hatt hlt
  apply scrapeAux_notFound_stop att s hnf k n 0
  · intro j hj
    simpa using hall j hj
  · simpa using hatt
  · exact hlt

/-- Page soup of a not-found placeholder carrying deliberately rich other
content, so that the short-circuit visibly ignores it. -/
def notFoundSoup : Soup :=
  ⟨some "Page not found - SoFIFA", some ScriptContent.crash, [footPara],
   [⟨some "Value", "Value50M"⟩], some "2024 ~ 2026"⟩

/-- Witness for C5 at a concrete input: attempt 0 fails, attempt 1 delivers
the not-found page, and the scrape with budget 3 returns the all-sentinel
result. -/
theorem C5_not_found_short_circuit_witness :
    profileFromSoup notFoundSoup = ParseOut.result allSentinel ∧
    scrape_player_profile
      (fun i => if i = 1 then some notFoundSoup else none) 3 = allSentinel := by
  have h := C5_not_found_short_circuit notFoundSoup
    (fun i => if i = 1 then some notFoundSoup else none) 3 1 (by decide)
  refine ⟨h.1, h.2 ?_ rfl (by omega)⟩
  intro j hj
  have hj0 : j = 0 := by omega
  subst hj0
  exact Or.inl rfl

/-! ### Script_1 listing loop (claims C7 and C10)

The roster table selected on line 281 of Script_1 is a list of rows; each
row exposes its td cells, a cell exposes the first anchor inside it (text
and href), its own text, and the first span of class pos inside it.  The
per-player detail scrape is abstracted as a function from the detail URL to
the 9-field list it returns (in the real pipeline this is
scrape_player_profile, which always returns 9 fields). -/

/-- One td cell of a roster row. -/
structure Cell where
  anchor : Option (String × String)
  text : String
  posSpan : Option String
deriving DecidableEq

/-- One roster table row. -/
structure LRow where
  cells : List Cell
deriving DecidableEq

/-- A td cell with nothing in it. -/
def emptyCell : Cell :=
  ⟨none, "", none⟩

/-- Access cols[i]; the loop only indexes cells it has counted, so the
default is never reached on guarded paths. -/
def cellAt (row : LRow) (i : Nat) : Cell :=
  row.cells.getD i emptyCell

/-- Outcome of the body of the per-row loop (lines 286-318 of Script_1). -/
inductive RowOut where
  | short : RowOut
  | skipped : RowOut
  | produced : List String → RowOut
deriving DecidableEq

/-- Body of the per-row loop: a row with fewer than 8 td cells is skipped
with a warning; a row whose second cell has no anchor is skipped silently;
otherwise the 13-field player record is assembled from the row fields and
the 9 detail fields (of which value and wage are discarded).  When the
detail result does not consist of exactly 9 fields the tuple unpacking on
line 311 raises and the per-row except skips the row. -/
def rowOutcome (detail : String → List String) (row : LRow) : RowOut :=
  if row.cells.length < 8 then RowOut.short
  else
    match (cellAt row 1).anchor with
    | none => RowOut.skipped
    | some (nm, href) =>
      match detail ("https://sofifa.com" ++ href) with
      | [height, weight, foot, skill, weak, contract, _v, _w, nationality] =>
        RowOut.produced
          [(playerIdFrom href.data).getD "-", stripStr nm,
           stripStr (cellAt row 2).text, stripStr (cellAt row 3).text,
           stripStr (cellAt row 4).text,
           (match (cellAt row 1).posSpan with
            | some t => stripStr t
            | none => "-"),
           height, weight, foot, skill, weak, contract, nationality]
      | _ => RowOut.skipped

/-- The record a row contributes, when it contributes one. -/
def rowRecord (detail : String → List String) (row : LRow) : Option (List String) :=
  match rowOutcome detail row with
  | RowOut.produced r => some r
  | _ => none

/-- One iteration of the listing loop: the accumulator carries the
all_players_data list and the number of skip warnings printed so far. -/
def listingStep (detail : String → List String)
    (acc : List (List String) × Nat) (row : LRow) : List (List String) × Nat :=
  match rowOutcome detail row with
  | RowOut.short => (acc.1, acc.2 + 1)
  | RowOut.skipped => acc
  | RowOut.produced r => (acc.1 ++ [r], acc.2)

/-- The listing loop over all roster rows, returning the accumulated player
records and the number of skip warnings. -/
def listingPass (detail : String → List String) (rows : List LRow) :
    List (List String) × Nat :=
  rows.foldl (listingStep detail) ([], 0)

theorem foldl_listingStep (detail : String → List String) (rows : List LRow) :
    ∀ acc w, rows.foldl (listingStep detail) (acc, w) =
      (acc ++ rows.filterMap (rowRecord detail),
       w + (rows.filter
         (fun r => decide (rowOutcome detail r = RowOut.short))).length) := by
  induction rows with
  | nil => intro acc w; simp
  | cons row rs ih =>
    intro acc w
    rw [List.foldl_cons]
    cases hout : rowOutcome detail row with
    | short =>
      have hstep : listingStep detail (acc, w) row = (acc, w + 1) := by
        simp [listingStep, hout]
      rw [hstep, ih]
      have hrec : rowRecord detail row = none := by simp [rowRecord, hout]
      simp [hrec, List.filter_cons, hout]
      omega
    | skipped =>
      have hstep : listingStep detail (acc, w) row = (acc, w) := by
        simp [listingStep, hout]
      rw [hstep, ih]
      have hrec : rowRecord detail row = none := by simp [rowRecord, hout]
      simp [hrec, List.filter_cons, hout]
    | produced r =>
      have hstep : listingStep detail (acc, w) row = (acc ++ [r], w) := by
        simp [listingStep, hout]
      rw [hstep, ih]
      have hrec : rowRecord detail row = some r := by simp [rowRecord, hout]
      simp [hrec, List.filter_cons, hout]

theorem rowOutcome_short_iff (detail : String → List String) (row : LRow) :
    rowOutcome detail row = RowOut.short ↔ row.cells.length < 8 := by
  rw [rowOutcome]
  by_cases hlen : row.cells.length < 8
  · simp [hlen]
  · simp only [hlen, if_false, iff_false]
    split
    · simp
    · split <;> simp

theorem length_filterMap_eq_length_filter {α β : Type} (f : α → Option β) :
    ∀ l : List α, (l.filterMap f).length =
      (l.filter (fun a => (f a).isSome)).length := by
  intro l
  induction l with
  | nil => rfl
  | cons a l ih =>
    cases hfa : f a with
    | none => simp [List.filterMap_cons, List.filter_cons, hfa, ih]
    | some b => simp [List.filterMap_cons, List.filter_cons, hfa, ih]

theorem nine_fields (l : List String) (h : l.length = 9) :
    ∃ a b c d e f g x y, l = [a, b, c, d, e, f, g, x, y] := by
  obtain ⟨a, l1, rfl⟩ := List.exists_of_length_succ l h
  have h1 : l1.length = 8 := by simpa using h
  obtain ⟨b, l2, rfl⟩ := List.exists_of_length_succ l1 h1
  have h2 : l2.length = 7 := by simpa using h1
  obtain ⟨c, l3, rfl⟩ := List.exists_of_length_succ l2 h2
  have h3 : l3.length = 6 := by simpa using h2
  obtain ⟨d, l4, rfl⟩ := List.exists_of_length_succ l3 h3
  have h4 : l4.length = 5 := by simpa using h3
  obtain ⟨e, l5, rfl⟩ := List.exists_of_length_succ l4 h4
  have h5 : l5.length = 4 := by simpa using h4
  obtain ⟨f, l6, rfl⟩ := List.exists_of_length_succ l5 h5
  have h6 : l6.length = 3 := by simpa using h5
  obtain ⟨g, l7, rfl⟩ := List.exists_of_length_succ l6 h6
  have h7 : l7.length = 2 := by simpa using h6
  obtain ⟨x, l8, rfl⟩ := List.exists_of_length_succ l7 h7
  have h8 : l8.length = 1 := by simpa using h7
  obtain ⟨y, l9, rfl⟩ := List.exists_of_length_succ l8 h8
  have h9 : l9.length = 0 := by simpa using h8
  have hnil : l9 = [] := List.length_eq_zero.mp h9
  subst hnil
  exact ⟨a, b, c, d, e, f, g, x, y, rfl⟩

theorem rowRecord_isSome (detail : String → List String)
    (h9 : ∀ u, (detail u).length = 9) (row : LRow) :
    (rowRecord detail row).isSome =
      (decide (8 ≤ row.cells.length) && (cellAt row 1).anchor.isSome) := by
  rw [rowRecord, rowOutcome]
  by_cases hlen : row.cells.length < 8
  · have hnot : ¬ 8 ≤ row.cells.length := by omega
    simp [hlen, hnot]
  · have hge : 8 ≤ row.cells.length := by omega
    simp only [hlen, if_false]
    cases hanchor : (cellAt row 1).anchor with
    | none => simp [hge]
    | some a =>
      obtain ⟨nm, href⟩ := a
      obtain ⟨a1, b1, c1, d1, e1, f1, g1, x1, y1, hdet⟩ :=
        nine_fields _ (h9 ("https://sofifa.com" ++ href))
      simp [hdet, hge]

/-- The detail oracle returning the sentinel 9-field result for every URL. -/
def sentinelDetail : String → List String :=
  fun _ => allSentinel

/-- A td cell carrying only text. -/
def textCell (t : String) : Cell :=
  ⟨none, t, none⟩

/-- The name cell of a well-formed row: an anchor with the player name and
detail href, plus a pos span. -/
def nameCell (nm href : String) : Cell :=
  ⟨some (nm, href), nm, some "ST"⟩

/-- A well-formed roster row with exactly 8 td cells. -/
def goodRow (nm href a o p : String) : LRow :=
  ⟨[textCell "1", nameCell nm href, textCell a, textCell o, textCell p,
    textCell "t1", textCell "t2", textCell "t3"]⟩

/-- A malformed roster row with only 5 td cells. -/
def shortRow : LRow :=
  ⟨[textCell "1", nameCell "Xavi" "/player/1/xavi/", textCell "30",
    textCell "80", textCell "85"]⟩

/-- Listing markup with 3 well-formed rows and 1 row with only 5 columns,
the malformed row sitting in the middle so that processing visibly
continues past it. -/
def scenarioRows : List LRow :=
  [goodRow "Alice" "/player/100/alice/" "21" "88" "92",
   goodRow "Bob" "/player/200/bob/" "25" "85" "85",
   shortRow,
   goodRow "Carol" "/player/300/carol/" "30" "90" "90"]

/-- A well-formed row used twice to exhibit the absence of deduplication. -/
def dupRow : LRow :=
  goodRow "Dave" "/player/400/dave/" "28" "80" "81"

/-- The record dupRow contributes under the sentinel detail oracle. -/
def dupRecord : List String :=
  ["400", "Dave", "28", "80", "81", "ST",
   "-", "-", "-", "-", "-", "-", "-"]

/-- C7: in the listing loop of Script_1, the number of skip warnings equals
the number of rows with fewer than 8 columns, the number of records
produced equals the number of rows with at least 8 columns and a name
anchor (each such row yields exactly one record, and a short row aborts
nothing), and on concrete markup with 3 well-formed rows around 1 five-column
row the loop produces exactly 3 records and exactly 1 skip warning. -/
theorem C7_listing_row_skip (detail : String → List String) (rows : List LRow)
    (h9 : ∀ u, (detail u).length = 9) :
    (listingPass detail rows).2 =
      (rows.filter (fun r => decide (r.cells.length < 8))).length ∧
    (listingPass detail rows).1.length =
      (rows.filter (fun r =>
        decide (8 ≤ r.cells.length) && (cellAt r 1).anchor.isSome)).length ∧
    (listingPass sentinelDetail scenarioRows).1.length = 3 ∧
    (listingPass sentinelDetail scenarioRows).2 = 1 := by
  have hfold := foldl_listingStep detail rows [] 0
  refine ⟨?_, ?_, by decide, by decide⟩
  · rw [listingPass, hfold]
    simp only [Nat.zero_add]
    congr 1
    apply List.filter_congr
    intro r _
    exact decide_eq_decide.mpr (rowOutcome_short_iff detail r)
  · rw [listingPass, hfold]
    simp only [List.nil_append]
    rw [length_filterMap_eq_length_filter]
    congr 1
    apply List.filter_congr
    intro r _
    exact rowRecord_isSome detail h9 r

/-- Witness for C7 at the concrete scenario: 3 records and 1 warning. -/
theorem C7_listing_row_skip_witness :
    (listingPass sentinelDetail scenarioRows).1.length = 3 ∧
    (listingPass sentinelDetail scenarioRows).2 = 1 :=
  ⟨(C7_listing_row_skip sentinelDetail scenarioRows (fun _ => rfl)).2.2.1,
   (C7_listing_row_skip sentinelDetail scenarioRows (fun _ => rfl)).2.2.2⟩

/-- C10: the row-based listing pass of Script_1 performs no URL-based
deduplication: the accumulated records are exactly the per-row records in
row order (one for every row with at least 8 columns and a name anchor),
and a listing in which the same well-formed row appears twice yields the
same record twice. -/
theorem C10_no_dedup_row_listing (detail : String → List String)
    (rows : List LRow) (h9 : ∀ u, (detail u).length = 9) :
    (listingPass detail rows).1 = rows.filterMap (rowRecord detail) ∧
    (∀ row, (rowRecord detail row).isSome =
      (decide (8 ≤ row.cells.length) && (cellAt row 1).anchor.isSome)) ∧
    (listingPass sentinelDetail [dupRow, dupRow]).1 = [dupRecord, dupRecord] := by
  refine ⟨?_, fun row => rowRecord_isSome detail h9 row, by decide⟩
  rw [listingPass, foldl_listingStep detail rows [] 0]
  simp

/-- Witness for C10: the duplicated well-formed row produces its record
twice, in row order. -/
theorem C10_no_dedup_row_listing_witness :
    (listingPass sentinelDetail [dupRow, dupRow]).1 = [dupRecord, dupRecord] :=
  (C10_no_dedup_row_listing sentinelDetail [dupRow, dupRow]
    (fun _ => rfl)).2.2

/-! ### Script_2 scrape_name_value_wage (claim C9)

The player detail page as read by scrape_name_value_wage: the first h1
element text, and the div.grid columns, each exposing its div.sub label
text and its em element text. -/

/-- One div.col inside div.grid. -/
structure Col2 where
  sub : Option String
  em : Option String
deriving DecidableEq

/-- The projections of a rendered player page read by
scrape_name_value_wage. -/
structure Page2 where
  h1 : Option String
  cols : List Col2
deriving DecidableEq

/-- One step of the column loop (lines 230-239 of Script_2): a column
without a div.sub child is skipped; otherwise its stripped label selects
whether the em text is recorded as value or wage, provided an em element
exists. -/
def col2Step (st : String × String) (c : Col2) : String × String :=
  match c.sub with
  | none => st
  | some subText =>
    let label := stripStr subText
    match c.em with
    | none => st
    | some emText =>
      if label = "Value" then (stripStr emText, st.2)
      else if label = "Wage" then (st.1, stripStr emText)
      else st

/-- Parse phase of one successful attempt of scrape_name_value_wage
(lines 222-241): player name from the h1 element, value and wage from the
grid columns, each defaulting to the sentinel. -/
def nvwFromPage (pg : Page2) : String × String × String :=
  let name := match pg.h1 with
    | some t => stripStr t
    | none => "-"
  let vw := pg.cols.foldl col2Step ("-", "-")
  (name, vw.1, vw.2)

/-- Retry loop of scrape_name_value_wage: the player id has already been
parsed from the URL before the loop; an attempt either raises (`none`,
consuming one of the max_retries attempts) or parses a page; exhaustion
returns the id with sentinel name, value and wage. -/
def nvwAux (pid : String) (att : Nat → Option Page2) :
    Nat → Nat → String × String × String × String
  | _, 0 => (pid, "-", "-", "-")
  | i, fuel + 1 =>
    match att i with
    | none => nvwAux pid att (i + 1) fuel
    | some pg => (pid, (nvwFromPage pg).1, (nvwFromPage pg).2.1, (nvwFromPage pg).2.2)

/-- Model of scrape_name_value_wage(player_url, driver, max_retries) of
Script_2 lines 188-249: the player id is extracted from the URL by
re.search before any navigation, then up to maxRetries attempts run. -/
def scrape_name_value_wage (url : String) (att : Nat → Option Page2)
    (maxRetries : Nat) : String × String × String × String :=
  nvwAux ((playerIdFrom url.data).getD "-") att 0 maxRetries

theorem nvwAux_exhaust (pid : String) (att : Nat → Option Page2) :
    ∀ fuel i, (∀ j, j < fuel → att (i + j) = none) →
      nvwAux pid att i fuel = (pid, "-", "-", "-") := by
  intro fuel
  induction fuel with
  | zero => intro i _; rfl
  | succ f ih =>
    intro i hall
    have h0 := hall 0 (by omega)
    rw [Nat.add_zero] at h0
    simp only [nvwAux, h0]
    apply ih
    intro j hj
    have hv := hall (j + 1) (by omega)
    have e : i + (j + 1) = i + 1 + j := by omega
    rw [e] at hv
    exact hv

theorem playerIdFrom_digits :
    ∀ l : List Char, ∀ s, playerIdFrom l = some s →
      s.data ≠ [] ∧ ∀ c ∈ s.data, c.isDigit := by
  intro l
  induction l with
  | nil => intro s h; cases h
  | cons c cs ih =>
    intro s h
    rw [playerIdFrom] at h
    by_cases hpre : ("/player/".data).isPrefixOf (c :: cs)
    · rw [if_pos hpre] at h
      by_cases hemp : ((cs.drop 7).takeWhile Char.isDigit).isEmpty
      · rw [if_pos hemp] at h
        exact ih s h
      · rw [if_neg hemp] at h
        cases h
        constructor
        · intro hc
          rw [List.isEmpty_iff] at hemp
          exact hemp hc
        · intro ch hch
          exact List.mem_takeWhile_imp hch
    · rw [if_neg hpre] at h
      exact ih s h

theorem playerIdFrom_ne_sentinel (l : List Char) (s : String)
    (h : playerIdFrom l = some s) : s ≠ "-" := by
  intro hcontr
  obtain ⟨hne, hdig⟩ := playerIdFrom_digits l s h
  subst hcontr
  have hmem : '-' ∈ ("-" : String).data := by decide
  have := hdig '-' hmem
  simp at this

/-- C9: in the minimal variant, when every retry attempt for an entity
raises, the returned record is the player id parsed from the URL before
any navigation followed by sentinel name, value and wage; the id component
is the sentinel exactly when the URL has no /player/ digit segment, so for
a URL with such a segment the record is not fully sentinel. -/
theorem C9_retry_exhaust_keeps_id (url : String) (att : Nat → Option Page2)
    (n : Nat) (hfail : ∀ j, j < n → att j = none) :
    scrape_name_value_wage url att n =
      ((playerIdFrom url.data).getD "-", "-", "-", "-") ∧
    ((scrape_name_value_wage url att n).1 = "-" ↔ playerIdFrom url.data = none) ∧
    playerIdFrom ("https://sofifa.com/player/239085/erling-haaland/240002/" : String).data
      = some "239085" ∧
    playerIdFrom ("https://sofifa.com/team/10/manchester-city/" : String).data = none := by
  have hmain : scrape_name_value_wage url att n =
      ((playerIdFrom url.data).getD "-", "-", "-", "-") := by
    rw [scrape_name_value_wage]
    apply nvwAux_exhaust
    intro j hj
    rw [Nat.zero_add]
    exact hfail j hj
  refine ⟨hmain, ?_, by decide, by decide⟩
  rw [hmain]
  cases hid : playerIdFrom url.data with
  | none => simp
  | some s =>
    simp only [Option.getD_some]
    constructor
    · intro hcontr
      exact absurd hcontr (playerIdFrom_ne_sentinel url.data s hid)
    · intro hcontr; cases hcontr

/-- Witness for C9 at concrete inputs: with all three attempts raising, the
player URL yields the id 239085 with sentinel name, value and wage, and the
segment-free URL yields the fully sentinel record. -/
theorem C9_retry_exhaust_keeps_id_witness :
    scrape_name_value_wage "https://sofifa.com/player/239085/erling-haaland/240002/"
      (fun _ => none) 3 = ("239085", "-", "-", "-") ∧
    scrape_name_value_wage "https://sofifa.com/team/10/manchester-city/"
      (fun _ => none) 3 = ("-", "-", "-", "-") :=
  ⟨by
    have h := (C9_retry_exhaust_keeps_id
      "https://sofifa.com/player/239085/erling-haaland/240002/"
      (fun _ => none) 3 (fun _ _ => rfl)).1
    rw [h]; decide,
   by
    have h := (C9_retry_exhaust_keeps_id
      "https://sofifa.com/team/10/manchester-city/"
      (fun _ => none) 3 (fun _ _ => rfl)).1
    rw [h]; decide⟩

/-! ### Export and finalization (claims C3 and C6)

Script_1 finalizes in a finally block: the accumulated rows are put in a
frame, sorted ascending by the ID column, and export_all_formats writes the
Excel, pipe-delimited text and JSON files unconditionally — also on an
empty row set.  Script_2 exports only inside an `if results:` guard, after
having already exited early when no player URLs were discovered, so an
empty run writes nothing.  File writes are modelled as the list of
(format, rows written) pairs the run performs, in program order. -/

/-- The three output formats. -/
inductive ExportFile where
  | xlsx : ExportFile
  | txt : ExportFile
  | json : ExportFile
deriving DecidableEq

/-- The ID column of a full-profile record (column 0 of the 13-field row). -/
def rowId (r : List String) : String :=
  r.headD ""

/-- Row comparison used to model df.sort_values(by="ID") on the string ID
column: ascending in the string order of the ID field.  The pandas call
sorts ascending by the column; the sort is embedded as the stable ascending
insertion sort on that key. -/
def idLe (a b : List String) : Prop :=
  rowId a ≤ rowId b

instance : DecidableRel idLe :=
  fun a b => inferInstanceAs (Decidable (rowId a ≤ rowId b))

instance : IsTotal (List String) idLe :=
  ⟨fun a b => le_total (rowId a) (rowId b)⟩

instance : IsTrans (List String) idLe :=
  ⟨fun _ _ _ hab hbc => le_trans hab hbc⟩

/-- Contract of df.sort_values(by="ID") on line 341 of Script_1, with the
default kind (quicksort): the output is ascending in the string order of
the ID column and is a permutation of the input.  The pandas documentation
guarantees stability only for the mergesort/stable kinds, so nothing may
be assumed about the relative order of rows with equal ids; the call is
therefore embedded as an arbitrary function satisfying this contract, not
as one concrete algorithm. -/
def sortValuesContract (data out : List (List String)) : Prop :=
  List.Sorted idLe out ∧ out.Perm data

/-- Model of export_all_formats (lines 227-244 of Script_1): write the
Excel file, then the pipe-delimited text file, then the JSON file, all
carrying the same frame. -/
def export_all_formats (df : List (List String)) :
    List (ExportFile × List (List String)) :=
  [(ExportFile.xlsx, df), (ExportFile.txt, df), (ExportFile.json, df)]

/-- Finalization of Script_1 (lines 330-344): runs in the finally block on
every run, sorting the accumulated rows by ID and exporting all three
formats unconditionally, also for an empty row set.  The sort step is the
library call, passed in as any function satisfying sortValuesContract. -/
def script1Finalize (sortImpl : List (List String) → List (List String))
    (data : List (List String)) : List (ExportFile × List (List String)) :=
  export_all_formats (sortImpl data)

/-- One record of the minimal name/value/wage variant. -/
structure Rec2 where
  id : String
  name : String
  value : String
  wage : String
deriving DecidableEq

/-- The main loop of Script_2 (lines 289-304): visit the player URLs in
discovery order and append one record per player to the results list. -/
def script2Loop (urls : List String) (scrape : String → Rec2) : List Rec2 :=
  urls.foldl (fun results u => results ++ [scrape u]) []

/-- The export tail of Script_2 (lines 308-355): the text, JSON and Excel
files are written only when the results list is nonempty; otherwise the
script merely logs that nothing was saved. -/
def script2Export (results : List Rec2) : List (ExportFile × List Rec2) :=
  if results.isEmpty then []
  else [(ExportFile.txt, results), (ExportFile.json, results),
        (ExportFile.xlsx, results)]

/-- The whole main block of Script_2 after URL discovery (lines 276-355):
with no discovered player URLs the program exits before scraping and writes
nothing; otherwise it runs the loop and the guarded export tail. -/
def script2Main (urls : List String) (scrape : String → Rec2) :
    List (ExportFile × List Rec2) :=
  if urls.isEmpty then []
  else script2Export (script2Loop urls scrape)

theorem foldl_append_eq_map (scrape : String → Rec2) (urls : List String) :
    ∀ acc, urls.foldl (fun results u => results ++ [scrape u]) acc =
      acc ++ urls.map scrape := by
  induction urls with
  | nil => intro acc; simp
  | cons u us ih =>
    intro acc
    rw [List.foldl_cons, ih, List.map_cons]
    simp

theorem script2Loop_eq_map (urls : List String) (scrape : String → Rec2) :
    script2Loop urls scrape = urls.map scrape := by
  rw [script2Loop, foldl_append_eq_map]
  simp

/-- C3 counterexample: a run of the minimal variant that discovered no
player URLs has an empty result set and writes no file at all — none of the
three output files is attempted, refuting the claim that export of all
three files is attempted even when the result set is empty. -/
theorem C3_export_always_attempted_counterexample :
    script2Main [] (fun _ => ⟨"-", "-", "-", "-"⟩) = [] ∧
    (script2Main [] (fun _ => ⟨"-", "-", "-", "-"⟩)).map Prod.fst ≠
      [ExportFile.txt, ExportFile.json, ExportFile.xlsx] :=
  ⟨rfl, by decide⟩

/-- C3 (amended): the full-profile variant attempts the export of all three
output files at the end of every run, regardless of failures, even with an
empty accumulated result set; the minimal variant attempts all three
exports whenever at least one entity was visited (however many of them
degraded to sentinels), but a run with an empty result set terminates
without writing any file. -/
theorem C3_export_attempted_amended
    (sortImpl : List (List String) → List (List String))
    (data : List (List String))
    (urls : List String) (scrape : String → Rec2) :
    (script1Finalize sortImpl data).map Prod.fst =
      [ExportFile.xlsx, ExportFile.txt, ExportFile.json] ∧
    (script1Finalize sortImpl []).map Prod.fst =
      [ExportFile.xlsx, ExportFile.txt, ExportFile.json] ∧
    (urls ≠ [] → (script2Main urls scrape).map Prod.fst =
      [ExportFile.txt, ExportFile.json, ExportFile.xlsx]) ∧
    script2Main [] scrape = [] := by
  refine ⟨rfl, rfl, ?_, rfl⟩
  intro hne
  rw [script2Main, if_neg (by simpa using hne)]
  rw [script2Export, script2Loop_eq_map]
  rw [if_neg (by simpa using hne)]
  rfl

/-- Witness for C3 (amended) at a concrete input: a one-URL run of the
minimal variant writes the text, JSON and Excel files. -/
theorem C3_export_attempted_amended_witness :
    (script2Main ["https://sofifa.com/player/1/x/"]
      (fun _ => ⟨"1", "X", "-", "-"⟩)).map Prod.fst =
      [ExportFile.txt, ExportFile.json, ExportFile.xlsx] :=
  (C3_export_attempted_amended (fun d => d) []
    ["https://sofifa.com/player/1/x/"]
    (fun _ => ⟨"1", "X", "-", "-"⟩)).2.2.1 (by decide)

/-- First of two distinct full-profile rows sharing the id 7. -/
def tieRowA : List String :=
  ["7", "Alice", "21", "88", "92", "ST",
   "-", "-", "-", "-", "-", "-", "-"]

/-- Second of two distinct full-profile rows sharing the id 7. -/
def tieRowB : List String :=
  ["7", "Bob", "25", "85", "85", "ST",
   "-", "-", "-", "-", "-", "-", "-"]

/-- C6 counterexample: the source sorts with df.sort_values(by="ID") under
the default kind, whose documented guarantee is only ascending order by the
column together with being a permutation of the input — stability is
documented only for the mergesort/stable kinds.  At the concrete input of
two distinct rows that share the id 7 (equal ids are reachable: the listing
pass deduplicates nothing, and every href without a /player/ digit segment
gets the id "-"), the swapped output satisfies that full contract while
reversing the arrival order of the equal-id rows and differing from the
arrival-order output; hence the stable-sort clause of the claim is not a
property the code provides. -/
theorem C6_output_row_order_counterexample :
    sortValuesContract [tieRowA, tieRowB] [tieRowB, tieRowA] ∧
    rowId tieRowA = rowId tieRowB ∧
    tieRowA ≠ tieRowB ∧
    [tieRowB, tieRowA] ≠ [tieRowA, tieRowB] := by
  refine ⟨⟨?_, ?_⟩, rfl, by decide, by decide⟩
  · refine List.pairwise_cons.mpr ⟨?_, List.sorted_singleton tieRowA⟩
    intro b hb
    rw [List.mem_singleton.mp hb]
    show rowId tieRowB ≤ rowId tieRowA
    exact le_refl "7"
  · exact List.Perm.swap tieRowA tieRowB []

/-- C6 (amended): the full-profile variant sorts its output rows ascending
by the id field in the string order of the ID column, the sorted list being
a permutation of the accumulated rows — with the relative order of rows
sharing an id left unspecified, since the pandas sort kind used is not
documented stable — and all three export files carry exactly this one
sorted row list; the minimal variant performs no re-sorting and its result
list is the records in the visitation order of the player URLs. -/
theorem C6_output_row_order_amended
    (sortImpl : List (List String) → List (List String))
    (hsort : ∀ d, sortValuesContract d (sortImpl d))
    (data : List (List String)) (urls : List String)
    (scrape : String → Rec2) :
    List.Sorted idLe (sortImpl data) ∧
    (sortImpl data).Perm data ∧
    script1Finalize sortImpl data =
      [(ExportFile.xlsx, sortImpl data),
       (ExportFile.txt, sortImpl data),
       (ExportFile.json, sortImpl data)] ∧
    script2Loop urls scrape = urls.map scrape :=
  ⟨(hsort data).1, (hsort data).2, rfl, script2Loop_eq_map urls scrape⟩

/-- Witness for C6 (amended) at a concrete admissible sort implementation
(the ascending insertion sort, which meets the sort_values contract) and
concrete inputs: the rows with ids 9 and 10 come out in string order (10
before 9), all three files carry that list, and the minimal variant keeps
visitation order. -/
theorem C6_output_row_order_amended_witness :
    List.Sorted idLe (List.insertionSort idLe [["9", "B"], ["10", "A"]]) ∧
    (List.insertionSort idLe [["9", "B"], ["10", "A"]]).Perm
      [["9", "B"], ["10", "A"]] ∧
    script1Finalize (List.insertionSort idLe) [["9", "B"], ["10", "A"]] =
      [(ExportFile.xlsx, List.insertionSort idLe [["9", "B"], ["10", "A"]]),
       (ExportFile.txt, List.insertionSort idLe [["9", "B"], ["10", "A"]]),
       (ExportFile.json, List.insertionSort idLe [["9", "B"], ["10", "A"]])] ∧
    script2Loop ["u1", "u2"] (fun u => ⟨u, "n", "v", "w"⟩) =
      ["u1", "u2"].map (fun u => ⟨u, "n", "v", "w"⟩) :=
  C6_output_row_order_amended (List.insertionSort idLe)
    (fun d => ⟨List.sorted_insertionSort idLe d, List.perm_insertionSort idLe d⟩)
    [["9", "B"], ["10", "A"]] ["u1", "u2"] (fun u => ⟨u, "n", "v", "w"⟩)

end Sofifa
